import Mathlib

/-!
Shallow embedding of the collector execution and run pipeline of the
rhc-insights repository (src/collector.go and src/cmd/rhc-collector.go),
together with theorems settling the frozen claims about it.

External collaborators (the Go standard library primitives strings.Split,
strconv.FormatInt, strconv.ParseInt, os/exec, the BurntSushi TOML decoder,
the Compress packager and the Upload client) are modelled at the
granularity the repository observes them: pure string functions are
reproduced, and effectful ones become oracle outcomes threaded through an
explicit environment and filesystem state.
-/

namespace RhcCollector

/-! ## Go string splitting

`strings.Split(s, " ")` returns the substrings of `s` between every
occurrence of the separator, so the result always has one more element
than the number of spaces, and splitting the empty string yields `[""]`.
The model works on the character list of the string. -/

/-- Go strings.Split with the single-space separator, on character lists:
one token per maximal (possibly empty) run between space characters. -/
def splitOnSpace : List Char → List (List Char)
  | [] => [[]]
  | c :: rest =>
    if c = ' ' then [] :: splitOnSpace rest
    else
      match splitOnSpace rest with
      | [] => [[c]]
      | t :: ts => (c :: t) :: ts

/-! ## Decimal timestamps

The source stores last-run timestamps with `strconv.FormatInt(t, 10)` and
reads them back with `strconv.ParseInt(raw, 10, 64)`.  Both are external
standard-library functions; they are modelled for the non-negative values
the source ever stores. -/

/-- Decimal digit character for a value below ten. -/
def digitChar (n : Nat) : Char := Char.ofNat (48 + n)

/-- Numeric value of a digit character. -/
def charVal (c : Char) : Nat := c.toNat - 48

/-- Fuel-driven digit accumulation, the loop of the external
strconv.FormatInt: peel the least significant digit until the remaining
value is zero.  The fuel argument only bounds the number of iterations and
never runs out when it starts at the value plus one. -/
def natToDigitsAux : Nat → Nat → List Char → List Char
  | 0, _, ds => ds
  | fuel + 1, n, ds =>
    if n / 10 = 0 then digitChar (n % 10) :: ds
    else natToDigitsAux fuel (n / 10) (digitChar (n % 10) :: ds)

/-- Decimal digit list of a natural number, most significant first,
modelling the external strconv.FormatInt with base 10. -/
def natToDigits (n : Nat) : List Char := natToDigitsAux (n + 1) n []

/-- Decimal rendering of a natural number as a string. -/
def natToString (n : Nat) : String := ⟨natToDigits n⟩

/-- Decimal parsing, modelling the external strconv.ParseInt with base 10
on the canonical non-negative values the source writes (sign handling is
never exercised by the repository and is not modelled): the empty string
and any non-digit character are rejected. -/
def stringToNat (s : String) : Option Nat :=
  if !s.data.isEmpty && s.data.all Char.isDigit then
    some (s.data.foldl (fun a c => a * 10 + charVal c) 0)
  else
    none

/-! ## Path handling

The source joins paths with filepath.Join; it only ever joins a directory
(possibly ending in a separator) with a relative file name, so only the
collapsing of a trailing separator is modelled, not full path cleaning. -/

/-- Two-argument filepath.Join as used by the source. -/
def joinPath (dir name : String) : String :=
  if dir.data.getLast? = some '/' then dir ++ name else dir ++ "/" ++ name

/-! ## The collector data model (src/collector.go:25) -/

/-- Section meta of a definition document. -/
structure CollectorMeta where
  id : String
  name : String
  feature : String
deriving DecidableEq

/-- Section exec of a definition document. -/
structure CollectorExec where
  command : String
  contentType : String
  uid : Nat
  gid : Nat
deriving DecidableEq

/-- Section systemd of a definition document. -/
structure CollectorSystemd where
  service : String
  timer : String
deriving DecidableEq

/-- Generated (not user-supplied) fields of a loaded definition. -/
structure CollectorGenerated where
  path : String
deriving DecidableEq

/-- The Collector structure of src/collector.go:25. -/
structure Collector where
  meta : CollectorMeta
  exec : CollectorExec
  systemd : CollectorSystemd
  generated : CollectorGenerated
deriving DecidableEq

/-! ## Process-wide configuration (src/collector.go:19) -/

def COLLECTIONS_DIR : String := "/tmp/"

def COLLECTIONS_DIR_ENVVAR : String := "COLLECTION_DIRECTORY"

def CACHE_DIR : String := "/tmp/"

/-! ## The definition store (src/collector.go:46) -/

/-- On-disk state of one definition file, at the granularity the loader
observes it: the file may be unreadable (os.ReadFile fails), or else its
content is represented by the outcome of running the external toml.Decode
on it — `none` when the TOML library rejects the document, `some c` when it
decodes into the collector value `c` (fields absent from the document
decode to zero values, as in Go). -/
inductive FileState where
  | unreadable : FileState
  | content : Option Collector → FileState
deriving DecidableEq

/-- The configured definitions directory: whether os.Stat finds it, its
path, and its direct entries (file name paired with file state). -/
structure ConfigDir where
  present : Bool
  dirPath : String
  files : List (String × FileState)

/-- First entry with the given file name, modelling path resolution inside
the directory. -/
def findFile : List (String × FileState) → String → Option FileState
  | [], _ => none
  | (n, st) :: rest, key => if n = key then some st else findFile rest key

/-- newCollectorFromConfiguration (src/collector.go:64) parses the content
of the configuration file into Collector.  The call to the external
toml.Decode is represented by its outcome `parsed`.  On success the source
only records the path it loaded from; no validation of the decoded fields
(in particular none of the command field) is performed. -/
def newCollectorFromConfiguration (path : String) (parsed : Option Collector) :
    Except String Collector :=
  match parsed with
  | none => .error "cannot parse collector configuration"
  | some cc => .ok { cc with generated := { path := path } }

/-- newCollectorFromPath (src/collector.go:47): `none` for `st` means
os.Stat fails because no file exists at the path.  filepath.Abs is the
identity here because paths in the model are already absolute. -/
def newCollectorFromPath (path : String) (st : Option FileState) :
    Except String Collector :=
  match st with
  | none => .error "no such collector"
  | some .unreadable =>
      .error ("cannot read collector configuration from " ++ path)
  | some (.content parsed) => newCollectorFromConfiguration path parsed

/-- ensureCollectorsDirectory (src/collector.go:78). -/
def ensureCollectorsDirectory (dir : ConfigDir) : Except String Unit :=
  if dir.present then .ok ()
  else .error ("configuration directory " ++ dir.dirPath ++ " not found")

/-- GetCollector (src/collector.go:87) resolves an id to the file id.toml
inside the definitions directory. -/
def GetCollector (dir : ConfigDir) (id : String) : Except String Collector :=
  match ensureCollectorsDirectory dir with
  | .error e => .error e
  | .ok _ =>
      newCollectorFromPath (joinPath dir.dirPath (id ++ ".toml"))
        (findFile dir.files (id ++ ".toml"))

/-- Loop body of GetCollectors (src/collector.go:106): load every
enumerated file, skipping (with a logged warning) each one that fails to
load. -/
def collectGood (dirPath : String) : List (String × FileState) → List Collector
  | [] => []
  | (n, st) :: rest =>
    match newCollectorFromPath (joinPath dirPath n) (some st) with
    | .error _ => collectGood dirPath rest
    | .ok c => c :: collectGood dirPath rest

/-- GetCollectors (src/collector.go:95).  The glob with the fixed pattern
* cannot return ErrBadPattern, so that branch is unreachable and not
modelled; the glob enumerates the files of the directory. -/
def GetCollectors (dir : ConfigDir) : Except String (List Collector) :=
  match ensureCollectorsDirectory dir with
  | .error e => .error e
  | .ok _ => .ok (collectGood dir.dirPath dir.files)

/-! ## Filesystem and run-state cache model

The filesystem state the pipeline mutates: the set of existing collection
paths (directories and packaged artifacts), and the cache files holding
last-run timestamps (full path paired with file content). -/

structure FS where
  entries : List String
  cache : List (String × String)
deriving DecidableEq

/-- Overwrite-or-insert for the cache association list, modelling
os.WriteFile on the cache file path. -/
def setAssoc : List (String × String) → String → String → List (String × String)
  | [], k, v => [(k, v)]
  | (k0, v0) :: rest, k, v =>
    if k0 = k then (k, v) :: rest else (k0, v0) :: setAssoc rest k v

/-- Content of a cache file, modelling os.ReadFile (`none` when the file
does not exist). -/
def lookupCache : List (String × String) → String → Option String
  | [], _ => none
  | (k0, v0) :: rest, k => if k0 = k then some v0 else lookupCache rest k

/-- os.RemoveAll, modelled from the external Go standard library: removes
the path and everything below it; removing the empty path is a successful
no-op, because no file exists at that path. -/
def removeAllFS (fs : FS) (p : String) : FS :=
  if p = "" then fs
  else { fs with entries := fs.entries.filter (fun e => !(e == p || (p ++ "/").isPrefixOf e)) }

/-- os.Remove on a single file, modelled from the external Go standard
library. -/
def removeFileFS (fs : FS) (p : String) : FS :=
  { fs with entries := fs.entries.filter (fun e => !(e == p)) }

/-! ## The isolated executor (src/collector.go:118) -/

/-- Everything outside the process that a single run observes: clock
readings and the outcome of every external effect (directory creation, the
subprocess, cache persistence, packaging, upload, removal).  Fixing them as
oracle values expresses that the code never retries any of them. -/
structure RunEnv where
  timeStart : Nat := 0
  timeAtDirGen : Nat := 0
  timeAtWrite : Nat := 0
  timeEnd : Nat := 0
  mkdirFails : Bool := false
  runFails : Bool := false
  execErrMsg : String := ""
  runStderr : String := ""
  writeCacheFails : Bool := false
  collectDelta : Nat := 0
  compressResult : Except String String := .error "compression failed"
  uploadFails : Bool := false
  uploadErrMsg : String := ""
  uploadDelta : Nat := 0
  removeDirFails : Bool := false
  removeArchiveFails : Bool := false

/-- Error-level log events emitted on the collect path (slog.Error calls in
src/collector.go:150 and src/collector.go:156). -/
inductive LogEvent where
  | couldNotRunCollector (err : String) (stderr : String)
  | cannotUpdateTimestamp (id : String) (err : String)
deriving DecidableEq

/-- Name of the per-run collection directory: collector id concatenated
with the current Unix timestamp (src/collector.go:119). -/
def collectionDirName (c : Collector) (now : Nat) : String :=
  c.meta.id ++ "-" ++ natToString now

/-- generateCollectionDirectory (src/collector.go:118): builds the path
inside COLLECTIONS_DIR and creates it with os.MkdirAll. -/
def generateCollectionDirectory (c : Collector) (env : RunEnv) (fs : FS) :
    Except String String × FS :=
  let path := joinPath COLLECTIONS_DIR (collectionDirName c env.timeAtDirGen)
  if env.mkdirFails then (.error "cannot create collector directory", fs)
  else (.ok path, { fs with entries := path :: fs.entries })

/-- Argument vector handed to exec.Command (src/collector.go:132): element
0 of the single-space split is the executable, the rest are the
arguments.  Element 0 always exists because the split is never empty. -/
structure ExecCmd where
  executable : List Char
  args : List (List Char)
deriving DecidableEq

def mkExecCommand (command : String) : ExecCmd :=
  { executable := (splitOnSpace command.data).headD [],
    args := (splitOnSpace command.data).tail }

def collectExecutable (c : Collector) : List Char :=
  (mkExecCommand c.exec.command).executable

def collectArgs (c : Collector) : List (List Char) :=
  (mkExecCommand c.exec.command).args

/-- Environment handed to the subprocess (src/collector.go:136): the full
parent environment plus the collection-directory variable. -/
def collectSubprocessEnv (parentEnv : List String) (tempdir : String) : List String :=
  parentEnv ++ [COLLECTIONS_DIR_ENVVAR ++ "=" ++ tempdir]

/-- Result of one Collect call: the returned (path, error) pair, the
filesystem afterwards, the constructed command and the error events
logged. -/
structure CollectR where
  result : Except String String
  fs : FS
  cmd : ExecCmd
  log : List LogEvent

/-- SetLastRun (src/collector.go:163): writes the current Unix time, in
decimal, to the cache file of the collector id. -/
def SetLastRun (c : Collector) (now : Nat) (writeFails : Bool) (fs : FS) :
    Except String FS :=
  if writeFails then .error "write failed"
  else .ok { fs with
    cache := setAssoc fs.cache (joinPath CACHE_DIR (c.meta.id ++ ".last-run")) (natToString now) }

/-- GetLastRun (src/collector.go:169): reads the cache file and parses the
decimal timestamp; the resulting time.Unix value is represented by the
integer itself. -/
def GetLastRun (c : Collector) (fs : FS) : Except String Nat :=
  match lookupCache fs.cache (joinPath CACHE_DIR (c.meta.id ++ ".last-run")) with
  | none => .error "cannot read last-run file"
  | some raw =>
    match stringToNat raw with
    | none => .error "cannot parse timestamp"
    | some i => .ok i

/-- Collect (src/collector.go:131): build the command, create the
collection directory, run the subprocess with the injected environment
variable, and on success record the last run (a failed record write is
only logged).  On subprocess failure the function returns the empty string
as the path together with the wrapped run error, and the captured stderr
goes to the error log. -/
def Collect (c : Collector) (env : RunEnv) (fs : FS) : CollectR :=
  let cmd := mkExecCommand c.exec.command
  match generateCollectionDirectory c env fs with
  | (.error e, fs1) => { result := .error e, fs := fs1, cmd := cmd, log := [] }
  | (.ok tempdir, fs1) =>
    if env.runFails then
      { result := .error ("could not run collector: " ++ env.execErrMsg),
        fs := fs1, cmd := cmd,
        log := [.couldNotRunCollector env.execErrMsg env.runStderr] }
    else
      match SetLastRun c env.timeAtWrite env.writeCacheFails fs1 with
      | .error e =>
        { result := .ok tempdir, fs := fs1, cmd := cmd,
          log := [.cannotUpdateTimestamp c.meta.id e] }
      | .ok fs2 => { result := .ok tempdir, fs := fs2, cmd := cmd, log := [] }

/-! ## The run orchestrator (src/cmd/rhc-collector.go:289) -/

/-- CollectorInfoDTO (src/cmd/rhc-collector.go:181). -/
structure CollectorInfoDTO where
  id : String
  name : String
  feature : String
  command : String
  contentType : String
  uid : Nat
  gid : Nat
  definitionPath : String
  systemdService : String
  systemdTimer : String
deriving DecidableEq

/-- NewCollectorInfoDTO (src/cmd/rhc-collector.go:194); the Go version
returns an always-nil error alongside the value. -/
def NewCollectorInfoDTO (c : Collector) : CollectorInfoDTO :=
  { id := c.meta.id
    name := c.meta.name
    feature := c.meta.feature
    command := c.exec.command
    contentType := c.exec.contentType
    uid := c.exec.uid
    gid := c.exec.gid
    definitionPath := c.generated.path
    systemdService := c.systemd.service
    systemdTimer := c.systemd.timer }

/-- CollectorRunDTO (src/cmd/rhc-collector.go:289): the run summary.
Durations, float64 seconds in Go, are represented by the oracle values of
the environment. -/
structure CollectorRunDTO where
  collector : CollectorInfoDTO
  collectDuration : Nat
  uploadDuration : Nat
  keep : Bool
  keepPath : String
  upload : Bool
deriving DecidableEq

/-- Flags of the run command: --keep and --no-upload. -/
structure RunFlags where
  keepFlag : Bool
  noUpload : Bool

/-- Result of one doRun call: the returned summary or error, and the
filesystem afterwards. -/
structure RunR where
  result : Except String CollectorRunDTO
  fs : FS

/-- First deferred closure of doRun (src/cmd/rhc-collector.go:319): when
keep is set the directory is left alone, otherwise os.RemoveAll is
attempted and its own failure is only logged. -/
def deferTempdir (keep removeFails : Bool) (tempdir : String) (fs : FS) : FS :=
  if keep then fs
  else if removeFails then fs
  else removeAllFS fs tempdir

/-- Second deferred closure of doRun (src/cmd/rhc-collector.go:341):
os.Remove of the packaged archive, its own failure only logged. -/
def deferArchive (removeFails : Bool) (archive : String) (fs : FS) : FS :=
  if removeFails then fs else removeFileFS fs archive

/-- doRun (src/cmd/rhc-collector.go:298).  The deferred closures run at
every exit of the Go function, the archive one (registered later) first;
the model applies them explicitly on each exit path.  When Collect fails
it has returned the empty string as the path, so the directory cleanup
acts on the empty path.  The external Compress call creates the artifact
whose path its outcome names; Upload creates nothing.  Output formatting
after the summary is built is out of scope. -/
def doRun (dir : ConfigDir) (idArg : String) (flags : RunFlags) (env : RunEnv)
    (fs : FS) : RunR :=
  match GetCollector dir idArg with
  | .error e => { result := .error e, fs := fs }
  | .ok collector =>
    let collectorInfo := NewCollectorInfoDTO collector
    let keep := flags.keepFlag || flags.noUpload
    let upload := !flags.noUpload
    let cr := Collect collector env fs
    match cr.result with
    | .error e =>
      { result := .error e, fs := deferTempdir keep env.removeDirFails "" cr.fs }
    | .ok tempdir =>
      if upload then
        match env.compressResult with
        | .error e =>
          { result := .error e,
            fs := deferTempdir keep env.removeDirFails tempdir cr.fs }
        | .ok archive =>
          let fs1 : FS := { cr.fs with entries := archive :: cr.fs.entries }
          if env.uploadFails then
            { result := .error env.uploadErrMsg,
              fs := deferTempdir keep env.removeDirFails tempdir
                      (deferArchive env.removeArchiveFails archive fs1) }
          else
            { result := .ok
                { collector := collectorInfo
                  collectDuration := env.collectDelta
                  uploadDuration := env.uploadDelta
                  keep := keep
                  keepPath := if keep then tempdir else ""
                  upload := upload }
              fs := deferTempdir keep env.removeDirFails tempdir
                      (deferArchive env.removeArchiveFails archive fs1) }
      else
        { result := .ok
            { collector := collectorInfo
              collectDuration := env.collectDelta
              uploadDuration := 0
              keep := keep
              keepPath := if keep then tempdir else ""
              upload := upload }
          fs := deferTempdir keep env.removeDirFails tempdir cr.fs }

/-- Path of the collection directory a run of collector `c` creates under
environment `env`. -/
def tempdirOf (c : Collector) (env : RunEnv) : String :=
  joinPath COLLECTIONS_DIR (collectionDirName c env.timeAtDirGen)

/-! ## Concrete fixtures used by counterexamples and witnesses -/

def mockCollector : Collector :=
  { meta := { id := "org.example.mock", name := "Mock collector", feature := "mock" }
    exec := { command := "/usr/libexec/mock.sh", contentType := "application/vnd.mock",
              uid := 0, gid := 0 }
    systemd := { service := "", timer := "" }
    generated := { path := "" } }

def emptyCmdCollector : Collector :=
  { meta := { id := "org.example.empty", name := "Empty command", feature := "" }
    exec := { command := "", contentType := "", uid := 0, gid := 0 }
    systemd := { service := "", timer := "" }
    generated := { path := "" } }

def spacedCollector : Collector :=
  { mockCollector with exec := { mockCollector.exec with command := "a  b" } }

def mockDir : ConfigDir :=
  { present := true, dirPath := "/etc/collectors.d"
    files := [("org.example.mock.toml", .content (some mockCollector))] }

def fs0 : FS := { entries := [], cache := [] }

def okEnv : RunEnv := {}

def c4Env : RunEnv := { runFails := true, execErrMsg := "exit status 1",
                        runStderr := "mock stderr" }

def c5Env : RunEnv := { timeStart := 100, timeAtWrite := 150, timeEnd := 200 }

def mixedDir : ConfigDir :=
  { present := true, dirPath := "/etc/collectors.d"
    files := [("bad.toml", .unreadable),
              ("org.example.mock.toml", .content (some mockCollector)),
              ("junk.toml", .content none)] }

def mockLoaded : Collector :=
  { mockCollector with
      generated := { path := joinPath mockDir.dirPath ("org.example.mock" ++ ".toml") } }

def mismatchCollector : Collector :=
  { meta := { id := "bar", name := "Mismatched id", feature := "" }
    exec := { command := "/bin/true", contentType := "", uid := 0, gid := 0 }
    systemd := { service := "", timer := "" }
    generated := { path := "" } }

def mismatchDir : ConfigDir :=
  { present := true, dirPath := "/etc/collectors.d"
    files := [("foo.toml", .content (some mismatchCollector))] }

def mismatchLoaded : Collector :=
  { mismatchCollector with
      generated := { path := joinPath mismatchDir.dirPath ("foo" ++ ".toml") } }

/-! ## Claims about the orchestrator -/

def noUploadFlags : RunFlags := { keepFlag := false, noUpload := true }

def noKeepFlags : RunFlags := { keepFlag := false, noUpload := false }

def c3FailEnv : RunEnv := { runFails := true, execErrMsg := "exit status 1" }

def c9Env : RunEnv := { compressResult := .ok "/tmp/archive.tar.xz",
                        uploadFails := true, uploadErrMsg := "upload failed" }

theorem splitOnSpace_ne_nil (s : List Char) : splitOnSpace s ≠ [] := by
  cases s with
  | nil => simp [splitOnSpace]
  | cons c rest =>
    simp only [splitOnSpace]
    split
    · simp
    · split <;> simp

/-- Splitting a string that contains two adjacent spaces always produces an
empty token at a position at least 1: the token between the two spaces is
empty and at least one token precedes it. -/
theorem nil_mem_tail_splitOnSpace (u v : List Char) :
    [] ∈ (splitOnSpace (u ++ ' ' :: ' ' :: v)).tail := by
  induction u with
  | nil =>
    simp [splitOnSpace]
  | cons c u ih =>
    simp only [List.cons_append, splitOnSpace]
    split
    · exact List.mem_of_mem_tail ih
    · rcases h : splitOnSpace (u ++ ' ' :: ' ' :: v) with _ | ⟨t, ts⟩
      · exact absurd h (splitOnSpace_ne_nil _)
      · have := ih
        rw [h] at this
        simpa using this

theorem digitChar_isDigit (n : Nat) (h : n < 10) : (digitChar n).isDigit = true := by
  interval_cases n <;> decide

theorem charVal_digitChar (n : Nat) (h : n < 10) : charVal (digitChar n) = n := by
  interval_cases n <;> decide

theorem natToDigitsAux_append (fuel : Nat) :
    ∀ n ds, natToDigitsAux fuel n ds = natToDigitsAux fuel n [] ++ ds := by
  induction fuel with
  | zero => intro n ds; simp [natToDigitsAux]
  | succ fuel ih =>
    intro n ds
    simp only [natToDigitsAux]
    by_cases h : n / 10 = 0
    · simp [h]
    · rw [if_neg h, if_neg h, ih (n / 10) (digitChar (n % 10) :: ds),
        ih (n / 10) [digitChar (n % 10)], List.append_assoc, List.singleton_append]

theorem natToDigitsAux_ne_nil (fuel : Nat) :
    ∀ n ds, 0 < fuel ∨ ds ≠ [] → natToDigitsAux fuel n ds ≠ [] := by
  induction fuel with
  | zero =>
    intro n ds h
    rcases h with h | h
    · omega
    · simpa [natToDigitsAux] using h
  | succ fuel ih =>
    intro n ds _
    simp only [natToDigitsAux]
    by_cases h10 : n / 10 = 0
    · simp [h10]
    · rw [if_neg h10]
      exact ih (n / 10) _ (Or.inr (by simp))

theorem natToDigits_ne_nil (n : Nat) : natToDigits n ≠ [] :=
  natToDigitsAux_ne_nil (n + 1) n [] (Or.inl (by omega))

theorem natToDigitsAux_all_isDigit (fuel : Nat) :
    ∀ n ds, ds.all Char.isDigit = true →
      (natToDigitsAux fuel n ds).all Char.isDigit = true := by
  induction fuel with
  | zero => intro n ds h; simpa [natToDigitsAux] using h
  | succ fuel ih =>
    intro n ds h
    simp only [natToDigitsAux]
    have hd : (digitChar (n % 10)).isDigit = true :=
      digitChar_isDigit (n % 10) (Nat.mod_lt _ (by omega))
    by_cases h10 : n / 10 = 0
    · simp [h10, hd, h]
    · rw [if_neg h10]
      exact ih (n / 10) _ (by simp [hd, h])

theorem natToDigits_all_isDigit (n : Nat) : (natToDigits n).all Char.isDigit = true :=
  natToDigitsAux_all_isDigit (n + 1) n [] rfl

theorem foldl_natToDigitsAux (fuel : Nat) :
    ∀ n, n < fuel → ∀ acc,
      (natToDigitsAux fuel n []).foldl (fun a c => a * 10 + charVal c) acc =
        acc * 10 ^ (natToDigitsAux fuel n []).length + n := by
  induction fuel with
  | zero => intro n h; omega
  | succ fuel ih =>
    intro n h acc
    simp only [natToDigitsAux]
    by_cases h10 : n / 10 = 0
    · rw [if_pos h10]
      simp only [List.foldl_cons, List.foldl_nil, List.length_cons, List.length_nil,
        charVal_digitChar (n % 10) (Nat.mod_lt _ (by omega)), pow_one]
      omega
    · rw [if_neg h10, natToDigitsAux_append fuel (n / 10) [digitChar (n % 10)]]
      have hm : n / 10 < fuel := by
        have h1 : n / 10 < n := Nat.div_lt_self (by omega) (by omega)
        omega
      rw [List.foldl_append, ih (n / 10) hm acc, List.foldl_cons, List.foldl_nil,
        List.length_append, charVal_digitChar (n % 10) (Nat.mod_lt _ (by omega))]
      simp only [List.length_cons, List.length_nil]
      rw [pow_succ]
      have heq : (acc * 10 ^ (natToDigitsAux fuel (n / 10) []).length + n / 10) * 10
            + n % 10 =
          acc * (10 ^ (natToDigitsAux fuel (n / 10) []).length * 10)
            + (n / 10 * 10 + n % 10) := by
        ring
      rw [heq]
      congr 1
      omega

theorem foldl_natToDigits (n acc : Nat) :
    (natToDigits n).foldl (fun a c => a * 10 + charVal c) acc =
      acc * 10 ^ (natToDigits n).length + n :=
  foldl_natToDigitsAux (n + 1) n (by omega) acc

/-- Round trip: parsing the decimal rendering of a timestamp recovers it. -/
theorem stringToNat_natToString (n : Nat) : stringToNat (natToString n) = some n := by
  unfold stringToNat natToString
  have h1 : (natToDigits n).isEmpty = false := by
    cases h : natToDigits n with
    | nil => exact absurd h (natToDigits_ne_nil n)
    | cons a l => simp
  simp only [h1, natToDigits_all_isDigit, Bool.not_false, Bool.and_self, if_pos]
  rw [foldl_natToDigits n 0]
  simp

theorem natToString_zero : natToString 0 = "0" := rfl

theorem lookupCache_setAssoc (l : List (String × String)) (k v : String) :
    lookupCache (setAssoc l k v) k = some v := by
  induction l with
  | nil => simp [setAssoc, lookupCache]
  | cons p rest ih =>
    obtain ⟨k0, v0⟩ := p
    by_cases h : k0 = k <;> simp [setAssoc, lookupCache, h, ih]

/-! ## Claims -/

/-- C2, counterexample: a definition document that decodes with an empty
command field — which splits into zero non-empty tokens — is accepted by
newCollectorFromConfiguration rather than rejected as malformed. -/
theorem C2_counterexample :
    (splitOnSpace emptyCmdCollector.exec.command.data).filter
        (fun t => !t.isEmpty) = [] ∧
      newCollectorFromConfiguration "/etc/collectors.d/org.example.empty.toml"
          (some emptyCmdCollector) =
        .ok { emptyCmdCollector with
                generated := { path := "/etc/collectors.d/org.example.empty.toml" } } :=
  ⟨rfl, rfl⟩

/-- C2, amended: loading performs no validation of the command field at
all — a definition document loads successfully exactly when the TOML
decoder accepts it, regardless of how its command splits; a definition
with zero non-empty command tokens is accepted and reaches execution. -/
theorem C2_amended_no_command_validation (path : String) (parsed : Option Collector) :
    (∃ c, newCollectorFromConfiguration path parsed = .ok c) ↔ parsed.isSome = true := by
  cases parsed with
  | none => simp [newCollectorFromConfiguration]
  | some cc => simp [newCollectorFromConfiguration]

/-- C10: Collect splits the command on single spaces only — a command
containing two adjacent spaces yields an argument vector containing an
empty-string argument, and for the empty command string the executable
handed to exec.Command is the empty string, while loading such a
definition nevertheless succeeds, so an empty command can fail only at
launch time. -/
theorem C10_split_on_single_space (c c0 : Collector) (p : String) (u v : List Char)
    (h : c.exec.command.data = u ++ ' ' :: ' ' :: v)
    (h0 : c0.exec.command = "") :
    [] ∈ collectArgs c ∧ collectExecutable c0 = [] ∧
      newCollectorFromConfiguration p (some c0) =
        .ok { c0 with generated := { path := p } } := by
  refine ⟨?_, ?_, rfl⟩
  · show [] ∈ (splitOnSpace c.exec.command.data).tail
    rw [h]
    exact nil_mem_tail_splitOnSpace u v
  · show (splitOnSpace c0.exec.command.data).headD [] = []
    rw [h0]
    rfl

/-- C10, witness at the command "a  b" and the empty command. -/
theorem C10_split_on_single_space_witness :
    [] ∈ collectArgs spacedCollector ∧ collectExecutable emptyCmdCollector = [] ∧
      newCollectorFromConfiguration "/etc/collectors.d/org.example.empty.toml"
          (some emptyCmdCollector) =
        .ok { emptyCmdCollector with
                generated := { path := "/etc/collectors.d/org.example.empty.toml" } } :=
  C10_split_on_single_space spacedCollector emptyCmdCollector
    "/etc/collectors.d/org.example.empty.toml" [Char.ofNat 97] [Char.ofNat 98] (by decide) rfl

/-- C4: for a definition whose command exits non-zero, Collect fails with
the wrapped run error, the captured stderr is carried on the logged error
report, and the run-state cache entry for the collector id is neither
written nor modified (the whole cache is untouched). -/
theorem C4_execution_failure_no_cache_write (c : Collector) (env : RunEnv) (fs : FS)
    (hmk : env.mkdirFails = false) (hrun : env.runFails = true) :
    (Collect c env fs).result = .error ("could not run collector: " ++ env.execErrMsg) ∧
      (Collect c env fs).log =
        [LogEvent.couldNotRunCollector env.execErrMsg env.runStderr] ∧
      (Collect c env fs).fs.cache = fs.cache := by
  unfold Collect generateCollectionDirectory
  rw [hmk, hrun]
  simp

/-- C4, witness at a concrete failing run. -/
theorem C4_execution_failure_no_cache_write_witness :
    (Collect mockCollector c4Env fs0).result =
        .error ("could not run collector: " ++ c4Env.execErrMsg) ∧
      (Collect mockCollector c4Env fs0).log =
        [LogEvent.couldNotRunCollector c4Env.execErrMsg c4Env.runStderr] ∧
      (Collect mockCollector c4Env fs0).fs.cache = fs0.cache :=
  C4_execution_failure_no_cache_write mockCollector c4Env fs0 rfl rfl

/-- C5: after a successful collect run the last-run lookup for the
definition returns the timestamp taken between the start and the
completion of the call; and a failure to persist the record (the
writeCacheFails oracle) does not change the success outcome — the first
conjunct holds with no assumption on it. -/
theorem C5_last_run_window (c : Collector) (env : RunEnv) (fs : FS)
    (hmk : env.mkdirFails = false) (hrun : env.runFails = false)
    (h1 : env.timeStart ≤ env.timeAtWrite) (h2 : env.timeAtWrite ≤ env.timeEnd) :
    (Collect c env fs).result = .ok (tempdirOf c env) ∧
      (env.writeCacheFails = false →
        GetLastRun c (Collect c env fs).fs = .ok env.timeAtWrite ∧
          env.timeStart ≤ env.timeAtWrite ∧ env.timeAtWrite ≤ env.timeEnd) := by
  constructor
  · unfold Collect generateCollectionDirectory tempdirOf
    rw [hmk, hrun]
    cases hw : env.writeCacheFails <;> simp [SetLastRun, hw]
  · intro hw
    unfold Collect generateCollectionDirectory SetLastRun
    rw [hmk, hrun, hw]
    simp only [Bool.false_eq_true, if_false, reduceIte]
    refine ⟨?_, h1, h2⟩
    simp [GetLastRun, lookupCache_setAssoc, stringToNat_natToString]

/-- C5, witness at a concrete successful run. -/
theorem C5_last_run_window_witness :
    (Collect mockCollector c5Env fs0).result = .ok (tempdirOf mockCollector c5Env) ∧
      (c5Env.writeCacheFails = false →
        GetLastRun mockCollector (Collect mockCollector c5Env fs0).fs =
            .ok c5Env.timeAtWrite ∧
          c5Env.timeStart ≤ c5Env.timeAtWrite ∧ c5Env.timeAtWrite ≤ c5Env.timeEnd) :=
  C5_last_run_window mockCollector c5Env fs0 rfl rfl (by decide) (by decide)

/-- Every file of the directory whose content decodes successfully
contributes its collector (with the recorded load path) to the enumeration
result, whatever the other files look like. -/
theorem mem_collectGood_of_content (dirPath : String)
    (files : List (String × FileState)) (name : String) (parsed : Collector)
    (h : (name, FileState.content (some parsed)) ∈ files) :
    { parsed with generated := { path := joinPath dirPath name } } ∈
      collectGood dirPath files := by
  induction files with
  | nil => cases h
  | cons p rest ih =>
    obtain ⟨n, st⟩ := p
    rcases List.mem_cons.mp h with heq | hmem
    · have h1 : name = n ∧ FileState.content (some parsed) = st := by
        simpa using heq
      obtain ⟨rfl, rfl⟩ := h1
      simp [collectGood, newCollectorFromPath, newCollectorFromConfiguration]
    · simp only [collectGood]
      split
      · exact ih hmem
      · exact List.mem_cons_of_mem _ (ih hmem)

/-- A successful file lookup identifies an entry of the directory. -/
theorem findFile_mem (files : List (String × FileState)) (key : String)
    (st : FileState) (h : findFile files key = some st) : (key, st) ∈ files := by
  induction files with
  | nil => cases h
  | cons p rest ih =>
    obtain ⟨n, st0⟩ := p
    by_cases hn : n = key
    · subst hn
      simp [findFile] at h
      subst h
      exact List.mem_cons_self _ _
    · simp only [findFile, if_neg hn] at h
      exact List.mem_cons_of_mem _ (ih h)

/-- C7: when the definitions directory exists, enumeration always returns
successfully, with every well-formed definition included — a malformed or
unreadable file is skipped and never aborts the enumeration. -/
theorem C7_enumeration_partial_success (dir : ConfigDir) (h : dir.present = true) :
    ∃ l, GetCollectors dir = .ok l ∧
      ∀ name parsed, (name, FileState.content (some parsed)) ∈ dir.files →
        { parsed with generated := { path := joinPath dir.dirPath name } } ∈ l := by
  refine ⟨collectGood dir.dirPath dir.files, ?_, ?_⟩
  · unfold GetCollectors ensureCollectorsDirectory
    rw [h]
    rfl
  · intro name parsed hmem
    exact mem_collectGood_of_content dir.dirPath dir.files name parsed hmem

/-- C7, witness at a directory holding one unreadable, one well-formed and
one malformed definition. -/
theorem C7_enumeration_partial_success_witness :
    ∃ l, GetCollectors mixedDir = .ok l ∧
      ∀ name parsed, (name, FileState.content (some parsed)) ∈ mixedDir.files →
        { parsed with generated := { path := joinPath mixedDir.dirPath name } } ∈ l :=
  C7_enumeration_partial_success mixedDir rfl

/-- C8: whenever loading one definition by id succeeds, enumerating the
same directory also succeeds and its result contains that very definition
— in particular a definition with the same id. -/
theorem C8_loadOne_in_loadAll (dir : ConfigDir) (idArg : String) (c : Collector)
    (h : GetCollector dir idArg = .ok c) :
    ∃ l, GetCollectors dir = .ok l ∧ c ∈ l ∧ ∃ d ∈ l, d.meta.id = c.meta.id := by
  cases hpres : dir.present with
  | false =>
    unfold GetCollector ensureCollectorsDirectory at h
    rw [hpres] at h
    simp at h
  | true =>
    unfold GetCollector ensureCollectorsDirectory at h
    rw [hpres] at h
    simp only [if_true] at h
    cases hf : findFile dir.files (idArg ++ ".toml") with
    | none =>
      rw [hf] at h
      simp [newCollectorFromPath] at h
    | some st =>
      rw [hf] at h
      cases st with
      | unreadable => simp [newCollectorFromPath] at h
      | content parsed =>
        cases parsed with
        | none => simp [newCollectorFromPath, newCollectorFromConfiguration] at h
        | some cc =>
          simp only [newCollectorFromPath, newCollectorFromConfiguration,
            Except.ok.injEq] at h
          have hc : c ∈ collectGood dir.dirPath dir.files := by
            rw [← h]
            exact mem_collectGood_of_content dir.dirPath dir.files _ cc
              (findFile_mem dir.files _ _ hf)
          refine ⟨collectGood dir.dirPath dir.files, ?_, hc, c, hc, rfl⟩
          unfold GetCollectors ensureCollectorsDirectory
          rw [hpres]
          rfl

/-- C8, witness: the mock definition loaded by id reappears in the
enumeration of the same directory. -/
theorem C8_loadOne_in_loadAll_witness :
    ∃ l, GetCollectors mockDir = .ok l ∧ mockLoaded ∈ l ∧
      ∃ d ∈ l, d.meta.id = mockLoaded.meta.id :=
  C8_loadOne_in_loadAll mockDir "org.example.mock" mockLoaded rfl

/-- Inversion of a successful GetCollector: the directory is present, the
file named id.toml holds a document that decodes, and the returned value
is that document with the load path recorded — nothing else about it (in
particular not its meta.id field) is constrained. -/
theorem GetCollector_inv (dir : ConfigDir) (idArg : String) (c : Collector)
    (h : GetCollector dir idArg = .ok c) :
    dir.present = true ∧
      ∃ parsed, findFile dir.files (idArg ++ ".toml") =
          some (FileState.content (some parsed)) ∧
        c = { parsed with
                generated := { path := joinPath dir.dirPath (idArg ++ ".toml") } } := by
  cases hpres : dir.present with
  | false =>
    unfold GetCollector ensureCollectorsDirectory at h
    rw [hpres] at h
    simp at h
  | true =>
    refine ⟨rfl, ?_⟩
    unfold GetCollector ensureCollectorsDirectory at h
    rw [hpres] at h
    simp only [if_true] at h
    cases hf : findFile dir.files (idArg ++ ".toml") with
    | none =>
      rw [hf] at h
      simp [newCollectorFromPath] at h
    | some st =>
      rw [hf] at h
      cases st with
      | unreadable => simp [newCollectorFromPath] at h
      | content parsed =>
        cases parsed with
        | none => simp [newCollectorFromPath, newCollectorFromConfiguration] at h
        | some cc =>
          simp only [newCollectorFromPath, newCollectorFromConfiguration,
            Except.ok.injEq] at h
          exact ⟨cc, rfl, h.symm⟩

/-- C6, counterexample: the definition loaded from the file foo.toml
carries id bar — the loader never derives the id from the filename stem
nor checks the two against each other, so the claimed equality fails. -/
theorem C6_counterexample :
    GetCollector mismatchDir "foo" =
      .ok { mismatchCollector with
              generated := { path := joinPath mismatchDir.dirPath ("foo" ++ ".toml") } } ∧
      ({ mismatchCollector with
          generated :=
            { path := joinPath mismatchDir.dirPath ("foo" ++ ".toml") } }).meta.id ≠
        "foo" :=
  ⟨rfl, by decide⟩

/-- C6, amended: GetCollector id merely reads the file id.toml; the id of
the returned definition is whatever the document decoded to (it need not
equal the filename stem), and it is that document id which keys the
run-state cache file and prefixes the collection-directory name. -/
theorem C6_amended_id_from_document (dir : ConfigDir) (idArg : String) (c : Collector)
    (h : GetCollector dir idArg = .ok c) :
    (∃ parsed, findFile dir.files (idArg ++ ".toml") =
        some (FileState.content (some parsed)) ∧
        c = { parsed with
                generated := { path := joinPath dir.dirPath (idArg ++ ".toml") } }) ∧
      (∀ now fs, SetLastRun c now false fs =
          .ok { fs with
                cache := setAssoc fs.cache
                           (joinPath CACHE_DIR (c.meta.id ++ ".last-run"))
                           (natToString now) }) ∧
      (∀ env fs, env.mkdirFails = false →
        (generateCollectionDirectory c env fs).1 =
          .ok (joinPath COLLECTIONS_DIR
                (c.meta.id ++ "-" ++ natToString env.timeAtDirGen))) := by
  refine ⟨(GetCollector_inv dir idArg c h).2, ?_, ?_⟩
  · intro now fs
    rfl
  · intro env fs hmk
    unfold generateCollectionDirectory collectionDirName
    rw [hmk]
    rfl

/-- C6, witness at the mismatched fixture. -/
theorem C6_amended_id_from_document_witness :
    (∃ parsed, findFile mismatchDir.files ("foo" ++ ".toml") =
        some (FileState.content (some parsed)) ∧
        mismatchLoaded =
          { parsed with
              generated := { path := joinPath mismatchDir.dirPath ("foo" ++ ".toml") } }) ∧
      (∀ now fs, SetLastRun mismatchLoaded now false fs =
          .ok { fs with
                cache := setAssoc fs.cache
                           (joinPath CACHE_DIR (mismatchLoaded.meta.id ++ ".last-run"))
                           (natToString now) }) ∧
      (∀ env fs, env.mkdirFails = false →
        (generateCollectionDirectory mismatchLoaded env fs).1 =
          .ok (joinPath COLLECTIONS_DIR
                (mismatchLoaded.meta.id ++ "-" ++ natToString env.timeAtDirGen))) :=
  C6_amended_id_from_document mismatchDir "foo" mismatchLoaded rfl

/-! ## Helper lemmas about the run pipeline -/

/-- A successful collect (directory creation and subprocess both succeed)
returns the generated directory path and leaves it on disk, whether or not
persisting the last-run record succeeded. -/
theorem Collect_ok (c : Collector) (env : RunEnv) (fs : FS)
    (hmk : env.mkdirFails = false) (hrun : env.runFails = false) :
    (Collect c env fs).result = .ok (tempdirOf c env) ∧
      (Collect c env fs).fs.entries = tempdirOf c env :: fs.entries := by
  unfold Collect generateCollectionDirectory tempdirOf SetLastRun
  rw [hmk, hrun]
  cases hw : env.writeCacheFails <;> simp

/-- A collect whose subprocess fails still created the directory, and the
error result carries the empty path. -/
theorem Collect_runFailed (c : Collector) (env : RunEnv) (fs : FS)
    (hmk : env.mkdirFails = false) (hrun : env.runFails = true) :
    (Collect c env fs).result = .error ("could not run collector: " ++ env.execErrMsg) ∧
      (Collect c env fs).fs.entries = tempdirOf c env :: fs.entries := by
  unfold Collect generateCollectionDirectory tempdirOf
  rw [hmk, hrun]
  simp

theorem joinPath_tmp_ne_empty (name : String) : joinPath COLLECTIONS_DIR name ≠ "" := by
  obtain ⟨l⟩ := name
  unfold joinPath COLLECTIONS_DIR
  rw [if_pos (by decide)]
  intro h
  have h2 : (Char.ofNat 47 :: Char.ofNat 116 :: Char.ofNat 109 :: Char.ofNat 112 ::
      Char.ofNat 47 :: l) = ([] : List Char) := congrArg String.data h
  cases h2

theorem tempdirOf_ne_empty (c : Collector) (env : RunEnv) : tempdirOf c env ≠ "" :=
  joinPath_tmp_ne_empty (collectionDirName c env.timeAtDirGen)

theorem not_mem_removeAllFS (fs : FS) (p : String) (hp : p ≠ "") :
    p ∉ (removeAllFS fs p).entries := by
  unfold removeAllFS
  rw [if_neg hp]
  simp [List.mem_filter]

theorem not_mem_removeFileFS (fs : FS) (p : String) :
    p ∉ (removeFileFS fs p).entries := by
  simp [removeFileFS, List.mem_filter]

theorem not_mem_removeAllFS_of_not_mem (fs : FS) (p q : String)
    (h : q ∉ fs.entries) : q ∉ (removeAllFS fs p).entries := by
  unfold removeAllFS
  split
  · exact h
  · intro hq
    exact h (List.mem_filter.mp hq).1

theorem mem_deferArchive (b : Bool) (a : String) (fs : FS) (q : String)
    (h : q ∈ fs.entries) (hne : q ≠ a) : q ∈ (deferArchive b a fs).entries := by
  unfold deferArchive
  cases b
  · simp only [if_neg Bool.false_ne_true, removeFileFS, List.mem_filter]
    exact ⟨h, by simp [hne]⟩
  · simpa using h

/-- C1, counterexample: a run with no-upload requested and keep not
requested completes with the output directory still present on disk, and
its summary even reports it as kept — doRun forces keep to true whenever
no-upload is set, so the claimed removal never happens. -/
theorem C1_counterexample :
    "/tmp/org.example.mock-0" ∈
        (doRun mockDir "org.example.mock" noUploadFlags okEnv fs0).fs.entries ∧
      (doRun mockDir "org.example.mock" noUploadFlags okEnv fs0).result.map
          CollectorRunDTO.keep = Except.ok true :=
  ⟨by decide, rfl⟩

/-- C1, amended: when no-upload is requested, keep is implied — after a
successful collect the run skips packaging and upload, reports the
directory as kept at its path, and leaves it on disk, whether or not the
keep flag was given. -/
theorem C1_amended_noupload_implies_keep (dir : ConfigDir) (idArg : String)
    (flags : RunFlags) (env : RunEnv) (fs : FS) (c : Collector)
    (hget : GetCollector dir idArg = .ok c)
    (hnu : flags.noUpload = true)
    (hmk : env.mkdirFails = false) (hrun : env.runFails = false) :
    (doRun dir idArg flags env fs).result =
        .ok { collector := NewCollectorInfoDTO c
              collectDuration := env.collectDelta
              uploadDuration := 0
              keep := true
              keepPath := tempdirOf c env
              upload := false } ∧
      tempdirOf c env ∈ (doRun dir idArg flags env fs).fs.entries := by
  have hcol := Collect_ok c env fs hmk hrun
  unfold doRun
  rw [hget]
  simp only [hcol.1, hnu, Bool.or_true, Bool.not_true, Bool.false_eq_true, if_false,
    deferTempdir, if_true, hcol.2]
  refine ⟨?_, List.mem_cons_self _ _⟩
  trivial

/-- C1, witness at the mock fixture with no-upload set and keep unset. -/
theorem C1_amended_noupload_implies_keep_witness :
    (doRun mockDir "org.example.mock" noUploadFlags okEnv fs0).result =
        .ok { collector := NewCollectorInfoDTO mockLoaded
              collectDuration := okEnv.collectDelta
              uploadDuration := 0
              keep := true
              keepPath := tempdirOf mockLoaded okEnv
              upload := false } ∧
      tempdirOf mockLoaded okEnv ∈
        (doRun mockDir "org.example.mock" noUploadFlags okEnv fs0).fs.entries :=
  C1_amended_noupload_implies_keep mockDir "org.example.mock" noUploadFlags okEnv fs0
    mockLoaded rfl rfl rfl rfl

/-- C3, counterexample: in a run with keep=false whose collect subprocess
fails, the already created output directory is still on disk when the run
completes — Collect returned the empty string as the path, so the deferred
cleanup removed nothing. -/
theorem C3_counterexample :
    "/tmp/org.example.mock-0" ∈
        (doRun mockDir "org.example.mock" noKeepFlags c3FailEnv fs0).fs.entries ∧
      (doRun mockDir "org.example.mock" noKeepFlags c3FailEnv fs0).result =
        .error "could not run collector: exit status 1" :=
  ⟨by decide, rfl⟩

/-- C3, amended: after a run in which the collect subprocess succeeded
(and directory removal itself does not fail), effective keep=false means
the output directory is gone at completion whatever the later stages did,
and effective keep=true means it still exists, with any produced summary
reporting it as kept at its path; when the collect subprocess fails, the
directory created for it is leaked (see the counterexample). -/
theorem C3_amended_cleanup_after_successful_collect (dir : ConfigDir) (idArg : String)
    (flags : RunFlags) (env : RunEnv) (fs : FS) (c : Collector)
    (hget : GetCollector dir idArg = .ok c)
    (hmk : env.mkdirFails = false) (hrun : env.runFails = false)
    (hrm : env.removeDirFails = false)
    (harch : ∀ a, env.compressResult = .ok a → a ≠ tempdirOf c env) :
    ((flags.keepFlag || flags.noUpload) = false →
        tempdirOf c env ∉ (doRun dir idArg flags env fs).fs.entries) ∧
      ((flags.keepFlag || flags.noUpload) = true →
        tempdirOf c env ∈ (doRun dir idArg flags env fs).fs.entries ∧
          ∀ dto, (doRun dir idArg flags env fs).result = .ok dto →
            dto.keep = true ∧ dto.keepPath = tempdirOf c env) := by
  have hcol := Collect_ok c env fs hmk hrun
  have hne := tempdirOf_ne_empty c env
  constructor
  · intro hkeep
    have hnu : flags.noUpload = false := by
      cases h1 : flags.noUpload
      · rfl
      · rw [h1, Bool.or_true] at hkeep
        cases hkeep
    rw [hnu, Bool.or_false] at hkeep
    unfold doRun
    rw [hget]
    simp only [hcol.1, hnu, hkeep, Bool.not_false, Bool.or_false, if_true,
      deferTempdir, Bool.false_eq_true, if_false, hrm]
    cases hcr : env.compressResult with
    | error e => exact not_mem_removeAllFS _ _ hne
    | ok a =>
      cases huf : env.uploadFails <;> exact not_mem_removeAllFS _ _ hne
  · intro hkeep
    unfold doRun
    rw [hget]
    simp only [hcol.1, hkeep, deferTempdir, if_true]
    cases hnu : flags.noUpload with
    | true =>
      simp only [Bool.not_true, Bool.false_eq_true, if_false]
      refine ⟨hcol.2 ▸ List.mem_cons_self _ _, ?_⟩
      intro dto hdto
      cases hdto
      simp [hkeep]
    | false =>
      simp only [Bool.not_false, if_true]
      cases hcr : env.compressResult with
      | error e =>
        refine ⟨hcol.2 ▸ List.mem_cons_self _ _, ?_⟩
        intro dto hdto
        cases hdto
      | ok a =>
        have hane := harch a hcr
        have hmem : tempdirOf c env ∈
            (deferArchive env.removeArchiveFails a
              { (Collect c env fs).fs with
                  entries := a :: (Collect c env fs).fs.entries }).entries := by
          refine mem_deferArchive _ _ _ _ ?_ (Ne.symm hane)
          exact List.mem_cons_of_mem _ (hcol.2 ▸ List.mem_cons_self _ _)
        cases huf : env.uploadFails with
        | true =>
          refine ⟨hmem, ?_⟩
          intro dto hdto
          cases hdto
        | false =>
          refine ⟨hmem, ?_⟩
          intro dto hdto
          cases hdto
          simp [hkeep]

/-- C3, witness: a successful no-upload run keeps the directory and
reports its path. -/
theorem C3_amended_cleanup_after_successful_collect_witness :
    ((noUploadFlags.keepFlag || noUploadFlags.noUpload) = false →
        tempdirOf mockLoaded okEnv ∉
          (doRun mockDir "org.example.mock" noUploadFlags okEnv fs0).fs.entries) ∧
      ((noUploadFlags.keepFlag || noUploadFlags.noUpload) = true →
        tempdirOf mockLoaded okEnv ∈
            (doRun mockDir "org.example.mock" noUploadFlags okEnv fs0).fs.entries ∧
          ∀ dto, (doRun mockDir "org.example.mock" noUploadFlags okEnv fs0).result =
              .ok dto →
            dto.keep = true ∧ dto.keepPath = tempdirOf mockLoaded okEnv) :=
  C3_amended_cleanup_after_successful_collect mockDir "org.example.mock" noUploadFlags
    okEnv fs0 mockLoaded rfl rfl rfl rfl (fun _ h => nomatch h)

/-- C9, counterexample: in a keep=false run where packaging succeeds and
the upload fails, directory and artifact are indeed removed, but the run
returns the upload error before any summary is built — there is no summary
reporting upload as unsuccessful, contrary to the claim. -/
theorem C9_counterexample :
    (doRun mockDir "org.example.mock" noKeepFlags c9Env fs0).result =
        .error "upload failed" ∧
      "/tmp/org.example.mock-0" ∉
        (doRun mockDir "org.example.mock" noKeepFlags c9Env fs0).fs.entries ∧
      "/tmp/archive.tar.xz" ∉
        (doRun mockDir "org.example.mock" noKeepFlags c9Env fs0).fs.entries :=
  ⟨rfl, by decide, by decide⟩

/-- C9, amended: for keep=false runs in which packaging succeeds and the
upload fails (the removals themselves succeeding), both the output
directory and the packaged artifact are removed, and the run terminates
with the upload error as its result; no summary is produced — the summary
carrying the collect duration is only built after a successful upload or
when upload is skipped. -/
theorem C9_amended_upload_failure_cleanup (dir : ConfigDir) (idArg : String)
    (flags : RunFlags) (env : RunEnv) (fs : FS) (c : Collector) (a : String)
    (hget : GetCollector dir idArg = .ok c)
    (hkf : flags.keepFlag = false) (hnu : flags.noUpload = false)
    (hmk : env.mkdirFails = false) (hrun : env.runFails = false)
    (hcr : env.compressResult = .ok a) (huf : env.uploadFails = true)
    (hrm : env.removeDirFails = false) (hra : env.removeArchiveFails = false) :
    (doRun dir idArg flags env fs).result = .error env.uploadErrMsg ∧
      tempdirOf c env ∉ (doRun dir idArg flags env fs).fs.entries ∧
      a ∉ (doRun dir idArg flags env fs).fs.entries := by
  have hcol := Collect_ok c env fs hmk hrun
  have hne := tempdirOf_ne_empty c env
  unfold doRun
  rw [hget]
  simp only [hcol.1, hnu, hkf, Bool.or_false, Bool.not_false, if_true, hcr, huf,
    deferTempdir, deferArchive, Bool.false_eq_true, if_false, hrm, hra]
  refine ⟨?_, not_mem_removeAllFS _ _ hne, ?_⟩
  · trivial
  · exact not_mem_removeAllFS_of_not_mem _ _ _ (not_mem_removeFileFS _ _)

/-- C9, witness at the mock fixture with a failing upload. -/
theorem C9_amended_upload_failure_cleanup_witness :
    (doRun mockDir "org.example.mock" noKeepFlags c9Env fs0).result =
        .error c9Env.uploadErrMsg ∧
      tempdirOf mockLoaded c9Env ∉
        (doRun mockDir "org.example.mock" noKeepFlags c9Env fs0).fs.entries ∧
      "/tmp/archive.tar.xz" ∉
        (doRun mockDir "org.example.mock" noKeepFlags c9Env fs0).fs.entries :=
  C9_amended_upload_failure_cleanup mockDir "org.example.mock" noKeepFlags c9Env fs0
    mockLoaded "/tmp/archive.tar.xz" rfl rfl rfl rfl rfl rfl rfl rfl rfl

end RhcCollector
